import Mathlib

/-!
Verification of the repository synchronization engine of
`smart-repository-manager-core` against its specification.

The Python sources are shallowly embedded as pure Lean functions.  All
interaction with the outside world (file system probes, subprocess calls to
the underlying `git` binary, wall-clock sleeps) is represented by explicit
environment records supplying the outcome of each external call; the control
flow of the Python functions is translated verbatim over those records.
-/

namespace SmartRepo

/-- The four health states produced by `SyncService._check_repository_health`
(the Python code represents them as the strings `"healthy"`,
`"partially_broken"`, `"broken"`, `"not_exists"`). -/
inductive HealthStatus where
  | healthy
  | partially_broken
  | broken
  | not_exists
  deriving DecidableEq, Repr

/-!
## HealthInspector — `SyncService._check_repository_health`

The function first tests `repo_path.exists()` and `(repo_path / '.git').exists()`,
then runs four independent `git` probes (`rev-parse --git-dir`,
`log --oneline -1`, `remote -v`, `status --porcelain`).  Each probe's outcome
(success = return code 0; an exception raised by `subprocess.run` counts as
failure) is supplied by the environment below.
-/

/-- Environment for one health inspection: the two file-system existence
probes and the success of the four diagnostic `git` probes (a probe that
throws counts as failed, exactly as in the Python `except` branch). -/
structure HealthEnv where
  pathExists : Bool
  gitDirExists : Bool
  probeGitDir : Bool
  probeGitLog : Bool
  probeGitRemote : Bool
  probeGitStatus : Bool
  deriving DecidableEq, Repr

/-- The number of the four probes that returned code 0 (`passed_checks`). -/
def passedChecks (env : HealthEnv) : Nat :=
  (if env.probeGitDir then 1 else 0) + (if env.probeGitLog then 1 else 0) +
  (if env.probeGitRemote then 1 else 0) + (if env.probeGitStatus then 1 else 0)

/-- Embedding of `SyncService._check_repository_health` (status field only;
the recommendation strings do not affect any control flow downstream).
`passed_checks >= len(checks) * 0.7` with `len(checks) = 4` is the Python
float comparison `p >= 2.8`, which for an integer `p` is `10 * p ≥ 28`. -/
def checkRepositoryHealth (env : HealthEnv) : HealthStatus :=
  if !env.pathExists then .not_exists
  else if !env.gitDirExists then .broken
  else if passedChecks env = 4 then .healthy
  else if 10 * passedChecks env ≥ 28 then .partially_broken
  else .broken

/-- The `needs_repair` field of the health result: set in every branch
except `healthy`. -/
def healthNeedsRepair (env : HealthEnv) : Bool :=
  checkRepositoryHealth env ≠ .healthy

/-!
## StalenessOracle — `GitStatusChecker.needs_update`

External observations supplied by the environment:
* the two path-existence probes;
* `get_local_commit_date` (committer date of `HEAD`), already normalized to
  UTC seconds, `none` when `HEAD` is unreadable or parsing fails;
* the parse of `github_pushed_at` to UTC seconds, `none` when
  `datetime.fromisoformat` raises (caught by the enclosing `try`);
* `git ls-remote origin HEAD`: `none` for nonzero exit or exception,
  otherwise the stripped stdout;
* `git rev-parse HEAD`: `none` for nonzero exit, otherwise stripped stdout.
-/

structure StalenessEnv where
  pathExists : Bool
  gitDirExists : Bool
  localDate : Option Int
  githubDate : Option Int
  remoteQuery : Option String
  localHash : Option String
  deriving Repr

/-- ASCII whitespace, the separator set of Python's `str.split()` for the
`git` output handled here. -/
def isWsChar (c : Char) : Bool :=
  c == ' ' || c == '\t' || c == '\n' || c == '\r'

/-- First whitespace-separated token of a (stripped, nonempty) string:
Python's `remote_data.split()[0]`. -/
def firstToken (s : String) : String :=
  String.mk ((s.toList.dropWhile isWsChar).takeWhile (fun c => !isWsChar c))

/-- Outcome of `needs_update` together with whether the remote round-trip
(`git ls-remote`) was issued. -/
structure StalenessOutcome where
  result : Bool
  remoteQueried : Bool
  deriving DecidableEq, Repr

/-- Embedding of `GitStatusChecker.needs_update`.  `time_diff.total_seconds()`
is the exact difference of the two UTC timestamps. -/
def needsUpdate (env : StalenessEnv) : StalenessOutcome :=
  if !env.pathExists || !env.gitDirExists then ⟨true, false⟩
  else
    match env.localDate with
    | none => ⟨true, false⟩
    | some localDate =>
      match env.githubDate with
      | none => ⟨true, false⟩
      | some githubDate =>
        let diffSeconds : Int := githubDate - localDate
        if diffSeconds ≤ 300 then ⟨false, false⟩
        else if diffSeconds > 86400 then ⟨true, false⟩
        else
          match env.remoteQuery with
          | none => ⟨true, true⟩
          | some remoteData =>
            if remoteData = "" then ⟨true, true⟩
            else
              let remoteHash := firstToken remoteData
              match env.localHash with
              | none => ⟨true, true⟩
              | some localHash =>
                if localHash = remoteHash then ⟨false, true⟩ else ⟨true, true⟩

/-!
## OperationPlanner — `SyncService._determine_smart_operation`

The planner returns one of the strings `"clone"`, `"pull"`, `"repair"`,
`"skip"`.  Its inputs: the requested operation string, the (optionally
precomputed) health status, the two path probes re-checked at planning time,
`repo.pushed_at` (Python truthiness: `None` and `""` are falsy) and the
verdict of `GitStatusChecker.needs_update`, supplied as an oracle bit.
-/

/-- Python truthiness of an `Optional[str]` field. -/
def strTruthy : Option String → Bool
  | none => false
  | some s => s ≠ ""

/-- Embedding of `SyncService._determine_smart_operation`.  When
`healthStatus = none` (the orchestrator was run with `health_check=False`)
the code recomputes the health in place from the same probes. -/
def determineSmartOperation (requestedOperation : String)
    (healthStatus : Option HealthStatus) (healthEnv : HealthEnv)
    (pathExists gitDirExists : Bool) (pushedAt : Option String)
    (staleOracle : Bool) : String :=
  if requestedOperation = "clone" then "clone"
  else if requestedOperation = "update" then "pull"
  else
    let health := match healthStatus with
      | some h => h
      | none => checkRepositoryHealth healthEnv
    if health = .broken ∨ health = .not_exists then "clone"
    else if health = .partially_broken then "repair"
    else if !pathExists || !gitDirExists then "clone"
    else if strTruthy pushedAt then
      if staleOracle then "pull" else "skip"
    else "skip"

/-!
## RetryExecutor — `SyncService._execute_with_retries`

The outcome of each invocation of the planned operation (`_execute_clone`,
`_execute_pull`, or `_execute_repair` when the planned operation is
`"repair"`) and of each auto-repair escalation (`_execute_repair`) is
supplied by the environment, indexed by the attempt number; an exception
escaping the operation is the `exn` constructor (caught by the loop's
`except` branch).  The embedding additionally instruments the run with the
number of base-operation invocations, the number of escalation invocations,
and the backoff sleeps performed (attempt number, seconds).
-/

/-- Result of one invocation of the planned operation: a `(success, message)`
pair, or an exception with its text. -/
inductive ExecOutcome where
  | ok (success : Bool) (message : String)
  | exn (message : String)
  deriving DecidableEq, Repr

structure RetryEnv where
  maxRetries : Nat
  autoRepair : Bool
  operationType : String
  baseOutcome : Nat → ExecOutcome
  repairOutcome : Nat → Bool × String

/-- Instrumented result of `_execute_with_retries`: the returned triple
`(success, message, attempts)` plus the count of base-operation invocations,
the count of repair-escalation invocations, and the list of backoff sleeps
`(attempt number, seconds slept)` in order. -/
structure RetryResult where
  success : Bool
  message : String
  attempts : Nat
  baseAttempts : Nat
  escalations : Nat
  sleeps : List (Nat × Nat)
  deriving DecidableEq, Repr

/-- The retry loop body, from `attempt` with `remaining` loop iterations
left (`for attempt in range(1, max_retries + 1)`); `lastError` is the
`last_error` accumulator.  The zero-iterations case is the fall-through
`return False, f"Failed after {max_retries} attempts: {last_error}",
max_retries`. -/
def retryFrom (env : RetryEnv) : Nat → Nat → String → RetryResult
  | _, 0, lastError =>
    { success := false
      message := "Failed after " ++ toString env.maxRetries ++ " attempts: " ++ lastError
      attempts := env.maxRetries
      baseAttempts := 0, escalations := 0, sleeps := [] }
  | attempt, r + 1, _ =>
    if env.operationType ≠ "clone" ∧ env.operationType ≠ "pull" ∧
        env.operationType ≠ "repair" then
      { success := false
        message := "Unknown operation: " ++ env.operationType
        attempts := attempt
        baseAttempts := 0, escalations := 0, sleeps := [] }
    else
      match env.baseOutcome attempt with
      | .exn msg =>
        let sl := if attempt < env.maxRetries then [(attempt, 2)] else []
        let tail := retryFrom env (attempt + 1) r ("Exception: " ++ msg)
        { tail with baseAttempts := tail.baseAttempts + 1, sleeps := sl ++ tail.sleeps }
      | .ok success msg =>
        if success then
          { success := true, message := msg, attempts := attempt
            baseAttempts := 1, escalations := 0, sleeps := [] }
        else if env.autoRepair ∧ env.operationType ≠ "repair" then
          if (env.repairOutcome attempt).1 then
            { success := true
              message := "Auto-repaired: " ++ (env.repairOutcome attempt).2
              attempts := attempt + 1
              baseAttempts := 1, escalations := 1, sleeps := [] }
          else
            let sl := if attempt < env.maxRetries then
              [(attempt, min (2 ^ attempt) 10)] else []
            let tail := retryFrom env (attempt + 1) r (env.repairOutcome attempt).2
            { tail with baseAttempts := tail.baseAttempts + 1
                        escalations := tail.escalations + 1
                        sleeps := sl ++ tail.sleeps }
        else
          let sl := if attempt < env.maxRetries then
            [(attempt, min (2 ^ attempt) 10)] else []
          let tail := retryFrom env (attempt + 1) r msg
          { tail with baseAttempts := tail.baseAttempts + 1, sleeps := sl ++ tail.sleeps }

/-- Embedding of `SyncService._execute_with_retries`: the loop entered at
attempt 1 with `max_retries` iterations and `last_error = ""`. -/
def executeWithRetries (env : RetryEnv) : RetryResult :=
  retryFrom env 1 env.maxRetries ""

/-- Whether the loop iteration at `attempt` fails and falls through to the
next iteration (read off the loop body): the base operation raises, or it
returns failure and the auto-repair escalation is unavailable or itself
fails.  A successful base operation or a successful escalation returns from
the loop instead. -/
def attemptFails (env : RetryEnv) (a : Nat) : Bool :=
  match env.baseOutcome a with
  | .exn _ => true
  | .ok success _ =>
    if success then false
    else if env.autoRepair ∧ env.operationType ≠ "repair" then
      !(env.repairOutcome a).1
    else true

/-- The backoff duration the loop body sleeps after a failed non-final
attempt `a`: a fixed 2 seconds in the `except` branch, `min(2^a, 10)`
seconds for an ordinary failure. -/
def sleepDuration (env : RetryEnv) (a : Nat) : Nat :=
  match env.baseOutcome a with
  | .exn _ => 2
  | .ok _ _ => min (2 ^ a) 10

/-!
## RepairStrategy — `SyncService._execute_repair` and collaborators

The state of the target path is abstracted to what the engine observes of
it: the two existence probes and the verdict of
`_verify_repository_health` (both `rev-parse --git-dir` and
`log --oneline -1` exit 0).  `shutil.rmtree` yields the absent state.
-/

structure PathState where
  pathExists : Bool
  gitDirExists : Bool
  verifyOk : Bool
  deriving DecidableEq, Repr

/-- The state after `shutil.rmtree`: nothing on disk, every probe fails. -/
def PathState.absent : PathState := ⟨false, false, false⟩

/-- Outcome of the external `git clone` process run by
`GitCloneOperation.execute`: it completes with an exit status and leaves the
target path in some state, or it exceeds the timeout, or `Popen`/`communicate`
raises.  (In the latter two cases the operation itself removes the target, so
no post-state is recorded.) -/
inductive CloneProcOutcome where
  | completes (returnCodeZero : Bool) (post : PathState)
  | timedOut
  | raises
  deriving DecidableEq, Repr

/-- Environment for one `_execute_repair` call. -/
structure RepairEnv where
  /-- state of the target path on entry -/
  initial : PathState
  /-- the `fetch --all` / `reset --hard` block of `_try_fix_repository`
  raises an exception -/
  fixThrows : Bool
  /-- text of that exception -/
  fixExnText : String
  /-- state of the path after the fetch/reset commands -/
  fixPost : PathState
  /-- verdict of `Validators.validate_path` in `GitService.clone_repository` -/
  validTargetPath : Bool
  /-- the re-acquisition `git clone` process -/
  cloneProc : CloneProcOutcome
  /-- error text of a failed clone (`result.error`) -/
  cloneErrorText : String
  deriving DecidableEq, Repr

/-- Embedding of `SyncService._try_fix_repository`, returning
`((success, message), path state afterwards)`.  The re-check
`if not git_dir.exists(): git init` inside the `try` block repeats the test
already made two lines above and is therefore dead code. -/
def tryFixRepository (env : RepairEnv) : (Bool × String) × PathState :=
  if !env.initial.pathExists then
    ((false, "Repository does not exist"), env.initial)
  else if !env.initial.gitDirExists then
    ((false, "Not a git repository"), env.initial)
  else if env.fixThrows then
    ((false, "Fix error: " ++ env.fixExnText), env.fixPost)
  else if env.fixPost.verifyOk then
    ((true, "Fixed with fetch and reset"), env.fixPost)
  else
    ((false, "Fix attempted but repository still unhealthy"), env.fixPost)

/-- Embedding of `GitCloneOperation.execute` (state transformer on the
target path): remove an existing target, run `git clone`; on exit 0 verify
health and remove the target if unhealthy; on timeout or exception remove
the target; on a plain nonzero exit the target is left as the process left
it.  The initial removal of an existing target makes the path absent before
the process starts; every branch of the result is determined by the process
outcome, so the input state only survives through `cloneRepository`'s
validation short-circuit. -/
def gitCloneExecute (proc : CloneProcOutcome) (_st : PathState) : Bool × PathState :=
  match proc with
  | .completes rcZero post =>
    if rcZero then
      if post.verifyOk then (true, post) else (false, PathState.absent)
    else (false, post)
  | .timedOut => (false, PathState.absent)
  | .raises => (false, PathState.absent)

/-- Embedding of `GitService.clone_repository`: path validation, then the
clone operation. -/
def cloneRepository (env : RepairEnv) (st : PathState) : Bool × PathState :=
  if !env.validTargetPath then (false, st)
  else gitCloneExecute env.cloneProc st

/-- Embedding of `SyncService._execute_repair`: in-place fix first, then
`_cleanup_repository` and re-clone, with a post-clone health verification
whose failure removes the clone. -/
def executeRepair (env : RepairEnv) : (Bool × String) × PathState :=
  let fixR := tryFixRepository env
  if fixR.1.1 then
    ((true, "Fixed: " ++ fixR.1.2), fixR.2)
  else
    let cl := cloneRepository env PathState.absent
    if cl.1 then
      if cl.2.verifyOk then
        ((true, "Re-cloned successfully"), cl.2)
      else
        ((false, "Re-cloned but repository is still unhealthy"), PathState.absent)
    else
      ((false, "Re-clone failed: " ++ env.cloneErrorText), cl.2)

/-!
## SyncOrchestrator — `SyncService.sync_user_repositories`

The `Repository` dataclass is embedded with the fields the synchronization
engine reads (`name`, `ssh_url`, `pushed_at`) and writes (`local_exists`,
`need_update`); the remaining read-only catalog fields (description,
language, counters, URLs, ...) are carried opaquely as `catalogFields` so
that the frame property "no other field is touched" is record equality.
-/

structure Repository where
  name : String
  sshUrl : Option String
  pushedAt : Option String
  localExists : Bool
  needUpdate : Bool
  catalogFields : List (String × String)
  deriving DecidableEq, Repr

/-- Per-repository environment: the repository record plus the outcomes of
every external interaction the orchestrator can perform for it. -/
structure RepoEnv where
  repo : Repository
  /-- probes observed by `_check_repository_health` (and re-checked by the
  planner) for this repository's path -/
  health : HealthEnv
  /-- verdict of `GitStatusChecker.needs_update` for this path -/
  stale : Bool
  /-- outcome of the planned operation at each attempt -/
  baseOutcome : Nat → ExecOutcome
  /-- outcome of the auto-repair escalation at each attempt -/
  repairOutcome : Nat → Bool × String

/-- Orchestration-run parameters: the `operation`, `auto_repair`,
`health_check` arguments, the service's `max_retries`, and whether
`StructureService.create_user_structure` returned a nonempty mapping. -/
structure SyncConfig where
  operation : String
  autoRepair : Bool
  healthCheck : Bool
  maxRetries : Nat
  structureOk : Bool
  deriving DecidableEq, Repr

/-- Python-dict insertion `d[k] = v`: replace the entry if the key is
present, else append. -/
def dictInsert {α : Type} (k : String) (v : α) :
    List (String × α) → List (String × α)
  | [] => [(k, v)]
  | (k', v') :: rest =>
    if k' = k then (k, v) :: rest else (k', v') :: dictInsert k v rest

/-- Python-dict lookup `d.get(k)`. -/
def dictGet {α : Type} (k : String) : List (String × α) → Option α
  | [] => none
  | (k', v) :: rest => if k' = k then some v else dictGet k rest

/-- The `health_stats` histogram of `SyncResult`. -/
structure HealthStats where
  healthy : Nat
  partiallyBroken : Nat
  broken : Nat
  notExists : Nat
  deriving DecidableEq, Repr

def HealthStats.bump (s : HealthStats) : HealthStatus → HealthStats
  | .healthy => { s with healthy := s.healthy + 1 }
  | .partially_broken => { s with partiallyBroken := s.partiallyBroken + 1 }
  | .broken => { s with broken := s.broken + 1 }
  | .not_exists => { s with notExists := s.notExists + 1 }

/-- The up-front health-check loop: builds `health_results` (keyed by
repository name) and the histogram. -/
def healthPhase (repos : List RepoEnv) :
    List (String × HealthStatus) × HealthStats :=
  repos.foldl
    (fun acc e =>
      let hs := checkRepositoryHealth e.health
      (dictInsert e.repo.name hs acc.1, acc.2.bump hs))
    ([], ⟨0, 0, 0, 0⟩)

/-- How one loop iteration of `sync_user_repositories` classified its
repository. -/
inductive StepKind where
  | failedNoUrl
  | skippedUpToDate
  | successOutcome
  | repairedOutcome
  | failedOp
  deriving DecidableEq, Repr

/-- Record of one loop iteration: which branch recorded the repository,
the reason/message string it recorded, the attempts the retry executor
reported, the instrumented executor-invocation counts (both zero when the
executor was never called), and the repository record after the iteration. -/
structure RepoOutcome where
  name : String
  kind : StepKind
  message : String
  attempts : Nat
  baseAttempts : Nat
  escalations : Nat
  newRepo : Repository
  deriving DecidableEq, Repr

/-- Holds when the first list is an initial segment of the second
(character lists). -/
def charsStartWith : List Char → List Char → Bool
  | [], _ => true
  | _ :: _, [] => false
  | a :: as, b :: bs => a == b && charsStartWith as bs

/-- Holds when `needle` occurs somewhere in `hay` (character lists). -/
def charsContain (needle : List Char) : List Char → Bool
  | [] => charsStartWith needle []
  | b :: bs => charsStartWith needle (b :: bs) || charsContain needle bs

/-- Python substring test `needle in hay`. -/
def containsSub (needle hay : String) : Bool :=
  charsContain needle.toList hay.toList

/-- Python `str.lower()` (ASCII, which covers every message the engine
builds). -/
def lowerStr (s : String) : String :=
  String.mk (s.toList.map Char.toLower)

/-- The per-repository body of the `for i, repo in enumerate(repositories)`
loop.  Nothing in the body reads the accumulating `SyncResult` or another
repository's state, so it is a function of the configuration, the
`health_results` dict, and this repository's environment. -/
def syncStep (cfg : SyncConfig) (healthDict : List (String × HealthStatus))
    (e : RepoEnv) : RepoOutcome :=
  if !strTruthy e.repo.sshUrl then
    ⟨e.repo.name, .failedNoUrl, "No SSH URL", 0, 0, 0, e.repo⟩
  else
    let healthStatus :=
      if cfg.healthCheck then dictGet e.repo.name healthDict else none
    let opType := determineSmartOperation cfg.operation healthStatus e.health
      e.health.pathExists e.health.gitDirExists e.repo.pushedAt e.stale
    if opType = "skip" then
      ⟨e.repo.name, .skippedUpToDate, "Already up to date", 0, 0, 0, e.repo⟩
    else
      let r := executeWithRetries
        { maxRetries := cfg.maxRetries, autoRepair := cfg.autoRepair,
          operationType := opType, baseOutcome := e.baseOutcome,
          repairOutcome := e.repairOutcome }
      if r.success then
        let newRepo := { e.repo with needUpdate := false, localExists := true }
        if containsSub "repaired" (lowerStr r.message) ||
            containsSub "re-cloned" (lowerStr r.message) then
          ⟨e.repo.name, .repairedOutcome,
            r.message ++ " (attempts: " ++ toString r.attempts ++ ")",
            r.attempts, r.baseAttempts, r.escalations, newRepo⟩
        else
          ⟨e.repo.name, .successOutcome, r.message,
            r.attempts, r.baseAttempts, r.escalations, newRepo⟩
      else
        ⟨e.repo.name, .failedOp,
          r.message ++ " (attempts: " ++ toString r.attempts ++ ")",
          r.attempts, r.baseAttempts, r.escalations, e.repo⟩

/-- The aggregate `SyncResult` (wall-clock fields omitted: they never feed
back into any decision). -/
structure SyncResult where
  successful : Nat
  failed : Nat
  skipped : Nat
  repaired : Nat
  total : Nat
  failedRepos : List (String × String)
  repairedRepos : List (String × String)
  skippedRepos : List (String × String)
  healthStats : HealthStats
  deriving DecidableEq, Repr

def SyncResult.empty : SyncResult :=
  ⟨0, 0, 0, 0, 0, [], [], [], ⟨0, 0, 0, 0⟩⟩

/-- Folding one iteration's record into the aggregate, exactly as the loop
branches update `result`. -/
def foldOutcome (acc : SyncResult) (o : RepoOutcome) : SyncResult :=
  match o.kind with
  | .failedNoUrl =>
    { acc with failed := acc.failed + 1
               failedRepos := dictInsert o.name o.message acc.failedRepos }
  | .skippedUpToDate =>
    { acc with skipped := acc.skipped + 1
               skippedRepos := dictInsert o.name o.message acc.skippedRepos }
  | .successOutcome =>
    { acc with successful := acc.successful + 1 }
  | .repairedOutcome =>
    { acc with repaired := acc.repaired + 1
               repairedRepos := dictInsert o.name o.message acc.repairedRepos }
  | .failedOp =>
    { acc with failed := acc.failed + 1
               failedRepos := dictInsert o.name o.message acc.failedRepos }

/-- Everything a run of `sync_user_repositories` produces: the returned
`SyncResult`, the per-iteration records (in input order), and the
repository records after the run (the caller's objects, mutated in place by
the Python code). -/
structure SyncRun where
  result : SyncResult
  outcomes : List RepoOutcome
  repos : List Repository
  deriving Repr

/-- Embedding of `SyncService.sync_user_repositories`.  When the directory
bootstrap fails the function returns early with `failed = total` and no
repository touched. -/
def syncUserRepositories (cfg : SyncConfig) (repos : List RepoEnv) : SyncRun :=
  let total := repos.length
  if !cfg.structureOk then
    { result := { SyncResult.empty with total := total, failed := total }
      outcomes := []
      repos := repos.map (·.repo) }
  else
    let healthDict := if cfg.healthCheck then (healthPhase repos).1 else []
    let stats := if cfg.healthCheck then (healthPhase repos).2 else ⟨0, 0, 0, 0⟩
    let outcomes := repos.map (syncStep cfg healthDict)
    { result := outcomes.foldl foldOutcome
        { SyncResult.empty with total := total, healthStats := stats }
      outcomes := outcomes
      repos := outcomes.map (·.newRepo) }

/-!
## Concrete environments used by witnesses and counterexamples
-/

/-- Run configuration for the concrete orchestration runs below: automatic
(`"sync"`) intent, auto-repair and health check enabled, three retries,
directory bootstrap succeeded. -/
def syncCfg : SyncConfig := ⟨"sync", true, true, 3, true⟩

/-- A repair environment whose in-place fix (fetch + hard reset) leaves a
verifiably healthy copy. -/
def repairFixEnv : RepairEnv :=
  ⟨⟨true, true, false⟩, false, "", ⟨true, true, true⟩, true,
    .completes true ⟨true, true, true⟩, ""⟩

/-- A repair environment whose in-place fix fails and whose re-acquisition
clone exits 0 but leaves an unhealthy copy. -/
def repairUnhealthyCloneEnv : RepairEnv :=
  ⟨⟨true, true, false⟩, false, "", ⟨true, true, false⟩, true,
    .completes true ⟨true, true, false⟩, "checkout failed"⟩

/-- Repository `"bar"`: locally present with 3 of 4 probes passing
(`partially_broken`, so the planner selects repair), and the planned repair
operation behaving exactly as `executeRepair` does on `repairFixEnv` — the
in-place fix succeeds. -/
def barEnv : RepoEnv :=
  { repo := ⟨"bar", some "git@host:org/bar.git", some "2025-01-01T00:00:00Z",
      true, true, []⟩
    health := ⟨true, true, true, true, true, false⟩
    stale := true
    baseOutcome := fun _ =>
      .ok (executeRepair repairFixEnv).1.1 (executeRepair repairFixEnv).1.2
    repairOutcome := fun _ => (false, "unused") }

/-- Repository `"baz"`: no clone address (`ssh_url = None`). -/
def bazEnv : RepoEnv :=
  { repo := ⟨"baz", none, none, false, true, []⟩
    health := ⟨false, false, false, false, false, false⟩
    stale := false
    baseOutcome := fun _ => .exn "never invoked"
    repairOutcome := fun _ => (false, "never invoked") }

/-- Retry environment in which both base attempts fail ordinarily and every
repair escalation fails: the loop escalates on each failed attempt. -/
def retryEnvTwoEscalations : RetryEnv :=
  ⟨2, true, "clone", fun _ => .ok false "network error",
    fun _ => (false, "repair failed")⟩

/-- Retry environment in which attempt 2 raises an exception (attempts 1
and 3 fail ordinarily, auto-repair disabled). -/
def retryEnvExnBackoff : RetryEnv :=
  ⟨3, false, "clone",
    fun a => if a = 2 then .exn "boom" else .ok false "fail",
    fun _ => (false, "")⟩

/-!
## Theorems
-/

/-- C1: the operation planner selects exactly one operation by first match:
explicit `"clone"` (acquire) intent yields clone and explicit `"update"`
(refresh) intent yields pull regardless of health; under automatic intent,
`not_exists` or `broken` health yields clone, `partially_broken` yields
repair, healthy with the path or the `.git` directory missing yields clone,
healthy and stale (per the guarded `GitStatusChecker.needs_update` call)
yields pull, and healthy and not stale yields skip. -/
theorem planner_decision_table (req : String) (h : HealthStatus)
    (henv : HealthEnv) (pathE gitE : Bool) (pushedAt : Option String)
    (stale : Bool) :
    ∀ op, op = determineSmartOperation req (some h) henv pathE gitE pushedAt stale →
    (op = "clone" ∨ op = "pull" ∨ op = "repair" ∨ op = "skip") ∧
    (req = "clone" → op = "clone") ∧
    (req = "update" → op = "pull") ∧
    (req ≠ "clone" → req ≠ "update" →
      (((h = .not_exists ∨ h = .broken) → op = "clone") ∧
       (h = .partially_broken → op = "repair") ∧
       (h = .healthy → (pathE = false ∨ gitE = false) → op = "clone") ∧
       (h = .healthy → pathE = true → gitE = true →
         op = if strTruthy pushedAt && stale then "pull" else "skip"))) := by
  intro op hop
  by_cases h1 : req = "clone"
  · subst h1
    simp only [determineSmartOperation, if_pos rfl] at hop
    subst hop
    refine ⟨Or.inl rfl, fun _ => rfl, fun hu => absurd hu (by decide),
      fun hc _ => absurd rfl hc⟩
  · by_cases h2 : req = "update"
    · subst h2
      simp only [determineSmartOperation, if_neg h1, if_pos rfl] at hop
      subst hop
      refine ⟨Or.inr (Or.inl rfl), fun hc => absurd hc (by decide),
        fun _ => rfl, fun _ hu => absurd rfl hu⟩
    · simp only [determineSmartOperation, if_neg h1, if_neg h2] at hop
      subst hop
      cases h <;>
        cases pathE <;> cases gitE <;> cases hst : strTruthy pushedAt <;>
        cases stale <;>
        simp [hst, h1, h2]

/-- Helper relating the 70 % probe threshold, stated over the rationals as
in the specification, to the integer comparison the code performs. -/
lemma ratThreshold (p : Nat) : ((p : ℚ) / 4 ≥ 0.7) ↔ 28 ≤ 10 * p := by
  rw [ge_iff_le, show (0.7 : ℚ) = 7 / 10 by norm_num,
    div_le_div_iff₀ (by norm_num) (by norm_num)]
  norm_cast
  omega

/-- C3: health inspection returns `not_exists` iff the path is absent,
`broken` when the path exists without `.git`; otherwise, with `p` of the 4
probes passing (a throwing probe counts as failed), it is `healthy` iff
`p = 4`, `partially_broken` iff `p/4 ≥ 0.7` and `p < 4`, `broken`
otherwise; and the classification depends only on the probe count, never on
which probe failed first (no short-circuiting). -/
theorem health_classification (env : HealthEnv) :
    (checkRepositoryHealth env = .not_exists ↔ env.pathExists = false) ∧
    (env.pathExists = true → env.gitDirExists = false →
      checkRepositoryHealth env = .broken) ∧
    (env.pathExists = true → env.gitDirExists = true →
      ((checkRepositoryHealth env = .healthy ↔ passedChecks env = 4) ∧
       (checkRepositoryHealth env = .partially_broken ↔
         (((passedChecks env : ℚ) / 4 ≥ 0.7) ∧ passedChecks env < 4)) ∧
       (checkRepositoryHealth env = .broken ↔
         ¬((passedChecks env : ℚ) / 4 ≥ 0.7)))) ∧
    (∀ env' : HealthEnv, env.pathExists = env'.pathExists →
      env.gitDirExists = env'.gitDirExists →
      passedChecks env = passedChecks env' →
      checkRepositoryHealth env = checkRepositoryHealth env') := by
  refine ⟨?_, ?_, ?_, ?_⟩
  · obtain ⟨pe, ge, a, b, c, d⟩ := env
    revert pe ge a b c d; decide
  · obtain ⟨pe, ge, a, b, c, d⟩ := env
    revert pe ge a b c d; decide
  · intro hp hg
    rw [ratThreshold]
    obtain ⟨pe, ge, a, b, c, d⟩ := env
    revert pe ge a b c d; decide
  · intro env' hp hg hc
    simp only [checkRepositoryHealth]
    rw [hp, hg, hc]

/-- Witness for C3 at a repository whose path and `.git` exist and where 3
of the 4 probes pass: classified `partially_broken`, and indeed
`3/4 ≥ 0.7` with `3 < 4`. -/
theorem health_classification_witness :
    ((3 : ℚ) / 4 ≥ 0.7) ∧ (3 : Nat) < 4 := by
  have h := ((health_classification ⟨true, true, true, true, true, false⟩).2.2.1
    rfl rfl).2.1.mp (by decide)
  simpa [passedChecks] using h

/-- Witness for C1 under automatic intent: `partially_broken` health plans a
repair. -/
theorem planner_decision_table_witness :
    determineSmartOperation "sync" (some .partially_broken)
      ⟨true, true, true, true, true, false⟩ true true (some "t") false
      = "repair" := by
  have h := (planner_decision_table "sync" .partially_broken
    ⟨true, true, true, true, true, false⟩ true true (some "t") false
    _ rfl).2.2.2 (by decide) (by decide)
  exact h.2.1 rfl

/-- C2: the staleness check returns true when no local commit timestamp can
be read (including a missing path or missing `.git`); false when the UTC
difference `remotePushedAt - localCommitTimestamp` is at most 300 seconds;
true without issuing the remote query when it exceeds 86400 seconds; in the
intermediate window false exactly when the remote head hash equals the
local head hash byte for byte; and a date-parse or remote-query error
resolves to true. -/
theorem staleness_tiers (env : StalenessEnv) :
    ((env.pathExists = false ∨ env.gitDirExists = false ∨ env.localDate = none) →
      (needsUpdate env).result = true) ∧
    (env.githubDate = none → (needsUpdate env).result = true) ∧
    (∀ ld gd : Int, env.pathExists = true → env.gitDirExists = true →
      env.localDate = some ld → env.githubDate = some gd →
      ((gd - ld ≤ 300 → needsUpdate env = ⟨false, false⟩) ∧
       (gd - ld > 86400 → needsUpdate env = ⟨true, false⟩) ∧
       (300 < gd - ld → gd - ld ≤ 86400 →
         ((env.remoteQuery = none → needsUpdate env = ⟨true, true⟩) ∧
          ((needsUpdate env).result = false ↔
            ∃ rd lh, env.remoteQuery = some rd ∧ rd ≠ "" ∧
              env.localHash = some lh ∧ lh = firstToken rd))))) := by
  obtain ⟨pe, ge, ldo, gdo, rq, lho⟩ := env
  refine ⟨?_, ?_, ?_⟩
  · rintro (rfl | rfl | rfl)
    · simp [needsUpdate]
    · cases pe <;> simp [needsUpdate]
    · cases pe <;> cases ge <;> simp [needsUpdate]
  · rintro rfl
    cases pe <;> cases ge <;> cases ldo <;> simp [needsUpdate]
  · intro ld gd hpe hge hld hgd
    subst hpe; subst hge; subst hld; subst hgd
    refine ⟨fun h300 => ?_, fun h864 => ?_, fun hlo hhi => ?_⟩
    · simp [needsUpdate, h300]
    · have h1 : ¬(gd - ld ≤ 300) := by omega
      simp [needsUpdate, h1, h864]
    · have h1 : ¬(gd - ld ≤ 300) := by omega
      have h2 : ¬(gd - ld > 86400) := by omega
      refine ⟨fun hrq => ?_, ?_⟩
      · subst hrq; simp [needsUpdate, h1, h2]
      · cases rq with
        | none => simp [needsUpdate, h1, h2]
        | some rd =>
          by_cases hrd : rd = ""
          · subst hrd; simp [needsUpdate, h1, h2]
          · cases lho with
            | none => simp [needsUpdate, h1, h2, hrd]
            | some lh =>
              by_cases heq : lh = firstToken rd
              · simp [needsUpdate, h1, h2, hrd, heq]
              · simp [needsUpdate, h1, h2, hrd, heq]

/-- Witness for C2: a fresh copy (diff 100 s) is not stale, a copy a day
behind (diff 90000 s) is stale with no remote query, and in the ambiguous
window matching head hashes resolve to not stale. -/
theorem staleness_tiers_witness :
    needsUpdate ⟨true, true, some 0, some 100, none, none⟩ = ⟨false, false⟩ ∧
    needsUpdate ⟨true, true, some 0, some 90000, some "h HEAD", some "h"⟩
      = ⟨true, false⟩ ∧
    (needsUpdate ⟨true, true, some 0, some 1000, some "h\tHEAD", some "h"⟩).result
      = false := by
  refine ⟨?_, ?_, ?_⟩
  · exact ((staleness_tiers ⟨true, true, some 0, some 100, none, none⟩).2.2
      0 100 rfl rfl rfl rfl).1 (by decide)
  · exact ((staleness_tiers ⟨true, true, some 0, some 90000, some "h HEAD",
      some "h"⟩).2.2 0 90000 rfl rfl rfl rfl).2.1 (by decide)
  · exact (((staleness_tiers ⟨true, true, some 0, some 1000, some "h\tHEAD",
      some "h"⟩).2.2 0 1000 rfl rfl rfl rfl).2.2 (by decide) (by decide)).2.mpr
      ⟨"h\tHEAD", "h", rfl, by decide, rfl, by decide⟩

/-- Invariant of the retry loop: base invocations are bounded by the
remaining iterations, each failed base attempt triggers at most one
escalation, and the reported attempt count never exceeds
`max_retries + 1`. -/
lemma retryFrom_bounds (env : RetryEnv) (remaining : Nat) :
    ∀ attempt lastError, attempt + remaining = env.maxRetries + 1 →
      ((retryFrom env attempt remaining lastError).baseAttempts ≤ remaining ∧
       (retryFrom env attempt remaining lastError).escalations ≤
         (retryFrom env attempt remaining lastError).baseAttempts ∧
       (retryFrom env attempt remaining lastError).attempts ≤ env.maxRetries + 1) := by
  induction remaining with
  | zero =>
    intro attempt lastError hinv
    simp [retryFrom]
  | succ r ih =>
    intro attempt lastError hinv
    simp only [retryFrom]
    split
    · refine ⟨?_, ?_, ?_⟩ <;> simp <;> omega
    · cases hbo : env.baseOutcome attempt with
      | exn msg =>
        have h := ih (attempt + 1) ("Exception: " ++ msg) (by omega)
        refine ⟨?_, ?_, ?_⟩ <;> simp <;> omega
      | ok success msg =>
        cases success with
        | true => refine ⟨?_, ?_, ?_⟩ <;> simp <;> omega
        | false =>
          simp only [Bool.false_eq_true, if_false]
          split
          · split
            · refine ⟨?_, ?_, ?_⟩ <;> simp <;> omega
            · have h := ih (attempt + 1) (env.repairOutcome attempt).2 (by omega)
              refine ⟨?_, ?_, ?_⟩ <;> simp <;> omega
          · have h := ih (attempt + 1) msg (by omega)
            refine ⟨?_, ?_, ?_⟩ <;> simp <;> omega

/-- Every backoff sleep recorded from iteration `attempt` onwards belongs
to an attempt numbered at least `attempt`. -/
lemma retryFrom_sleeps_lower (env : RetryEnv) (remaining : Nat) :
    ∀ attempt lastError p,
      p ∈ (retryFrom env attempt remaining lastError).sleeps →
      attempt ≤ p.1 := by
  induction remaining with
  | zero =>
    intro attempt lastError p hp
    simp [retryFrom] at hp
  | succ r ih =>
    intro attempt lastError p hp
    simp only [retryFrom] at hp
    split at hp
    · simp at hp
    · cases hbo : env.baseOutcome attempt with
      | exn msg =>
        rw [hbo] at hp
        simp only [List.mem_append] at hp
        rcases hp with hp | hp
        · split at hp
          · have hp2 : p = (attempt, 2) := by simpa using hp
            subst hp2
            simp
          · simp at hp
        · have := ih (attempt + 1) ("Exception: " ++ msg) p hp
          omega
      | ok success msg =>
        rw [hbo] at hp
        cases success with
        | true => simp at hp
        | false =>
          simp only [Bool.false_eq_true, if_false] at hp
          split at hp
          · split at hp
            · simp at hp
            · simp only [List.mem_append] at hp
              rcases hp with hp | hp
              · split at hp
                · have hp2 : p = (attempt, min (2 ^ attempt) 10) := by
                    simpa using hp
                  subst hp2
                  simp
                · simp at hp
              · have := ih (attempt + 1) (env.repairOutcome attempt).2 p hp
                omega
          · simp only [List.mem_append] at hp
            rcases hp with hp | hp
            · split at hp
              · have hp2 : p = (attempt, min (2 ^ attempt) 10) := by
                  simpa using hp
                subst hp2
                simp
              · simp at hp
            · have := ih (attempt + 1) msg p hp
              omega

/-- One failing loop iteration at `attempt`, given the characterization of
the tail: the sleeps of `(guarded singleton) ++ tail` are exactly the
attempts from `attempt` on whose whole prefix fails, each non-final, with
its branch's duration. -/
lemma retry_sleeps_step (env : RetryEnv) (attempt a d c : Nat)
    (tail : List (Nat × Nat))
    (hF : attemptFails env attempt = true)
    (hdur : sleepDuration env attempt = c)
    (htail : (a, d) ∈ tail ↔
      (attempt + 1 ≤ a ∧ a < env.maxRetries ∧
       (∀ b, attempt + 1 ≤ b → b ≤ a → attemptFails env b = true) ∧
       d = sleepDuration env a)) :
    ((a, d) ∈
        (if attempt < env.maxRetries then [(attempt, c)] else []) ++ tail ↔
      (attempt ≤ a ∧ a < env.maxRetries ∧
       (∀ b, attempt ≤ b → b ≤ a → attemptFails env b = true) ∧
       d = sleepDuration env a)) := by
  rw [List.mem_append]
  constructor
  · rintro (h | h)
    · by_cases hlt : attempt < env.maxRetries
      · rw [if_pos hlt] at h
        simp only [List.mem_singleton, Prod.mk.injEq] at h
        obtain ⟨ha, hd⟩ := h
        rw [ha, hd]
        refine ⟨le_refl _, hlt, ?_, hdur.symm⟩
        intro b hb1 hb2
        have hbe : b = attempt := by omega
        rw [hbe]
        exact hF
      · rw [if_neg hlt] at h
        simp at h
    · obtain ⟨h1, h2, h3, h4⟩ := htail.mp h
      refine ⟨by omega, h2, ?_, h4⟩
      intro b hb1 hb2
      by_cases hbe : b = attempt
      · rw [hbe]; exact hF
      · exact h3 b (by omega) hb2
  · rintro ⟨h1, h2, h3, h4⟩
    by_cases heq : a = attempt
    · refine Or.inl ?_
      rw [if_pos (heq ▸ h2)]
      simp only [List.mem_singleton, Prod.mk.injEq]
      exact ⟨heq, h4.trans (by rw [heq]; exact hdur)⟩
    · refine Or.inr (htail.mpr ⟨by omega, h2, ?_, h4⟩)
      intro b hb1 hb2
      exact h3 b (by omega) hb2

/-- A loop iteration at `attempt` that returns (base success or escalation
success) records no sleep, matching the characterization: the prefix
condition already fails at `attempt` itself. -/
lemma retry_sleeps_none_iff (env : RetryEnv) (attempt a d : Nat)
    (hFf : attemptFails env attempt = false) :
    ((a, d) ∈ ([] : List (Nat × Nat)) ↔
      (attempt ≤ a ∧ a < env.maxRetries ∧
       (∀ b, attempt ≤ b → b ≤ a → attemptFails env b = true) ∧
       d = sleepDuration env a)) := by
  constructor
  · intro h; simp at h
  · rintro ⟨h1, _, h3, _⟩
    have hFt := h3 attempt (le_refl _) h1
    rw [hFf] at hFt
    exact absurd hFt (by decide)

/-- Exact characterization of the backoff sleeps recorded by the retry
loop: `(a, d)` is recorded iff every iteration from the current one up to
and including `a` fails, `a` is not the final attempt, and `d` is that
attempt's branch duration. -/
lemma retryFrom_sleeps_iff (env : RetryEnv)
    (hop : env.operationType = "clone" ∨ env.operationType = "pull" ∨
      env.operationType = "repair") (remaining : Nat) :
    ∀ attempt lastError a d,
      attempt + remaining = env.maxRetries + 1 →
      ((a, d) ∈ (retryFrom env attempt remaining lastError).sleeps ↔
        (attempt ≤ a ∧ a < env.maxRetries ∧
         (∀ b, attempt ≤ b → b ≤ a → attemptFails env b = true) ∧
         d = sleepDuration env a)) := by
  have hopneg : ¬(env.operationType ≠ "clone" ∧ env.operationType ≠ "pull" ∧
      env.operationType ≠ "repair") := by
    rcases hop with h | h | h <;> simp [h]
  induction remaining with
  | zero =>
    intro attempt lastError a d hinv
    simp only [retryFrom]
    constructor
    · intro h; simp at h
    · rintro ⟨h1, h2, _, _⟩
      exact absurd h2 (by omega)
  | succ r ih =>
    intro attempt lastError a d hinv
    simp only [retryFrom]
    rw [if_neg hopneg]
    cases hbo : env.baseOutcome attempt with
    | exn msg =>
      have hF : attemptFails env attempt = true := by
        simp [attemptFails, hbo]
      have hdur : sleepDuration env attempt = 2 := by
        simp [sleepDuration, hbo]
      exact retry_sleeps_step env attempt a d 2
        ((retryFrom env (attempt + 1) r ("Exception: " ++ msg)).sleeps)
        hF hdur (ih (attempt + 1) ("Exception: " ++ msg) a d (by omega))
    | ok success msg =>
      cases success with
      | true =>
        have hFf : attemptFails env attempt = false := by
          simp [attemptFails, hbo]
        exact retry_sleeps_none_iff env attempt a d hFf
      | false =>
        simp only [Bool.false_eq_true, if_false]
        by_cases hc : env.autoRepair ∧ env.operationType ≠ "repair"
        · rw [if_pos hc]
          cases hrs : (env.repairOutcome attempt).1 with
          | true =>
            have hFf : attemptFails env attempt = false := by
              simp [attemptFails, hbo, hc, hrs]
            exact retry_sleeps_none_iff env attempt a d hFf
          | false =>
            have hF : attemptFails env attempt = true := by
              simp [attemptFails, hbo, hc, hrs]
            have hdur : sleepDuration env attempt = min (2 ^ attempt) 10 := by
              simp [sleepDuration, hbo]
            exact retry_sleeps_step env attempt a d (min (2 ^ attempt) 10)
              ((retryFrom env (attempt + 1) r
                (env.repairOutcome attempt).2).sleeps)
              hF hdur (ih (attempt + 1) (env.repairOutcome attempt).2 a d
                (by omega))
        · rw [if_neg hc]
          have hF : attemptFails env attempt = true := by
            simp [attemptFails, hbo, hc]
          have hdur : sleepDuration env attempt = min (2 ^ attempt) 10 := by
            simp [sleepDuration, hbo]
          exact retry_sleeps_step env attempt a d (min (2 ^ attempt) 10)
            ((retryFrom env (attempt + 1) r msg).sleeps)
            hF hdur (ih (attempt + 1) msg a d (by omega))

/-- The attempt numbers of the recorded sleeps are strictly increasing, so
at most one sleep is recorded per attempt. -/
lemma retryFrom_sleeps_increasing (env : RetryEnv) (remaining : Nat) :
    ∀ attempt lastError,
      ((retryFrom env attempt remaining lastError).sleeps).Pairwise
        (fun p q => p.1 < q.1) := by
  induction remaining with
  | zero => intro attempt lastError; simp [retryFrom]
  | succ r ih =>
    intro attempt lastError
    simp only [retryFrom]
    split
    · simp
    · cases hbo : env.baseOutcome attempt with
      | exn msg =>
        refine List.pairwise_append.mpr ⟨?_, ih (attempt + 1) _, ?_⟩
        · split <;> simp
        · intro p hp q hq
          have hq1 := retryFrom_sleeps_lower env r (attempt + 1) _ q hq
          have hp1 : p = (attempt, 2) := by
            split at hp
            · simpa using hp
            · simp at hp
          subst hp1
          show attempt < q.1
          omega
      | ok success msg =>
        cases success with
        | true => simp
        | false =>
          simp only [Bool.false_eq_true, if_false]
          split
          · split
            · simp
            · refine List.pairwise_append.mpr ⟨?_, ih (attempt + 1) _, ?_⟩
              · split <;> simp
              · intro p hp q hq
                have hq1 := retryFrom_sleeps_lower env r (attempt + 1) _ q hq
                have hp1 : p = (attempt, min (2 ^ attempt) 10) := by
                  split at hp
                  · simpa using hp
                  · simp at hp
                subst hp1
                show attempt < q.1
                omega
          · refine List.pairwise_append.mpr ⟨?_, ih (attempt + 1) _, ?_⟩
            · split <;> simp
            · intro p hp q hq
              have hq1 := retryFrom_sleeps_lower env r (attempt + 1) _ q hq
              have hp1 : p = (attempt, min (2 ^ attempt) 10) := by
                split at hp
                · simpa using hp
                · simp at hp
              subst hp1
              show attempt < q.1
              omega

/-- C4 (amended): the retry executor makes at most `maxRetries` base
attempts, triggers at most one repair escalation per failed base attempt
(each escalation a single un-retried call), and the attempts count it
returns is at most `maxRetries + 1`. -/
theorem retry_attempt_bounds (env : RetryEnv) :
    (executeWithRetries env).baseAttempts ≤ env.maxRetries ∧
    (executeWithRetries env).escalations ≤ (executeWithRetries env).baseAttempts ∧
    (executeWithRetries env).attempts ≤ env.maxRetries + 1 :=
  retryFrom_bounds env env.maxRetries 1 "" (by omega)

/-- C4 counterexample: with `max_retries = 2`, a persistently failing clone
and a persistently failing repair, the executor performs two repair
escalations in one call — not at most one in total. -/
theorem retry_escalation_not_one_shot :
    (executeWithRetries retryEnvTwoEscalations).escalations = 2 ∧
    ¬((executeWithRetries retryEnvTwoEscalations).escalations ≤ 1) := by
  decide

/-- C8 (amended): for a planned clone, pull or repair operation, the
executor records a backoff sleep after attempt `a` exactly when `a` is not
the final attempt and every attempt `1..a` failed (base failure not
rescued by an escalation); that sleep lasts a fixed 2 seconds when attempt
`a` raised an exception and `min(2^a, 10)` seconds when it failed
ordinarily.  The recorded attempt numbers are strictly increasing, so each
such attempt is followed by exactly one backoff sleep, and no sleep ever
follows the final attempt or a successful attempt. -/
theorem retry_backoff_occurrence (env : RetryEnv)
    (hop : env.operationType = "clone" ∨ env.operationType = "pull" ∨
      env.operationType = "repair") :
    (∀ a d, ((a, d) ∈ (executeWithRetries env).sleeps ↔
      (1 ≤ a ∧ a < env.maxRetries ∧
       (∀ b, 1 ≤ b → b ≤ a → attemptFails env b = true) ∧
       d = sleepDuration env a))) ∧
    ((executeWithRetries env).sleeps.map Prod.fst).Pairwise (· < ·) := by
  constructor
  · intro a d
    exact retryFrom_sleeps_iff env hop env.maxRetries 1 "" a d (by omega)
  · rw [List.pairwise_map]
    exact retryFrom_sleeps_increasing env env.maxRetries 1 ""

/-- C8 counterexample: attempt 2 fails (by exception) and is not final, yet
the executor sleeps 2 seconds, not `min(2^2, 10) = 4`. -/
theorem retry_backoff_claim_false :
    ((2, 2) ∈ (executeWithRetries retryEnvExnBackoff).sleeps) ∧
    ((2, min (2 ^ 2) 10) ∉ (executeWithRetries retryEnvExnBackoff).sleeps) ∧
    (2 : Nat) ≠ min (2 ^ 2) 10 := by
  decide

/-- Witness for C8 (amended) on the concrete environment: the occurrence
direction produces the sleep after the ordinary failure of attempt 1 and
the 2-second sleep after the exception of attempt 2. -/
theorem retry_backoff_occurrence_witness :
    ((1, 2) ∈ (executeWithRetries retryEnvExnBackoff).sleeps) ∧
    ((2, 2) ∈ (executeWithRetries retryEnvExnBackoff).sleeps) := by
  have h := retry_backoff_occurrence retryEnvExnBackoff (Or.inl rfl)
  constructor
  · exact (h.1 1 2).mpr ⟨by decide, by decide,
      fun b hb1 hb2 => by interval_cases b <;> decide, by decide⟩
  · exact (h.1 2 2).mpr ⟨by decide, by decide,
      fun b hb1 hb2 => by interval_cases b <;> decide, by decide⟩

/-- Each folded iteration record adds exactly one to exactly one of the
four outcome counters and never touches `total`. -/
lemma foldOutcome_sum (outcomes : List RepoOutcome) :
    ∀ acc : SyncResult,
      ((outcomes.foldl foldOutcome acc).successful +
       (outcomes.foldl foldOutcome acc).failed +
       (outcomes.foldl foldOutcome acc).skipped +
       (outcomes.foldl foldOutcome acc).repaired =
        acc.successful + acc.failed + acc.skipped + acc.repaired +
          outcomes.length) ∧
      (outcomes.foldl foldOutcome acc).total = acc.total := by
  induction outcomes with
  | nil => intro acc; simp
  | cons o rest ih =>
    intro acc
    simp only [List.foldl_cons, List.length_cons]
    have h := ih (foldOutcome acc o)
    have hf : (foldOutcome acc o).successful + (foldOutcome acc o).failed +
        (foldOutcome acc o).skipped + (foldOutcome acc o).repaired =
        acc.successful + acc.failed + acc.skipped + acc.repaired + 1 ∧
        (foldOutcome acc o).total = acc.total := by
      cases hk : o.kind <;> simp [foldOutcome, hk] <;> omega
    exact ⟨by omega, by omega⟩

/-- C10: the returned counters always partition the input: `successful +
failed + skipped + repaired = total` with `total` the number of input
repositories, including on the early return taken when the
directory-structure bootstrap fails, where `failed` is set to `total` and
the other counters stay zero. -/
theorem sync_counters_partition (cfg : SyncConfig) (repos : List RepoEnv) :
    ((syncUserRepositories cfg repos).result.successful +
     (syncUserRepositories cfg repos).result.failed +
     (syncUserRepositories cfg repos).result.skipped +
     (syncUserRepositories cfg repos).result.repaired =
       (syncUserRepositories cfg repos).result.total) ∧
    (syncUserRepositories cfg repos).result.total = repos.length ∧
    (cfg.structureOk = false →
      (syncUserRepositories cfg repos).result.failed = repos.length ∧
      (syncUserRepositories cfg repos).result.successful = 0 ∧
      (syncUserRepositories cfg repos).result.skipped = 0 ∧
      (syncUserRepositories cfg repos).result.repaired = 0) := by
  cases hok : cfg.structureOk with
  | false =>
    refine ⟨?_, ?_, fun _ => ⟨?_, ?_, ?_, ?_⟩⟩ <;>
      simp [syncUserRepositories, hok, SyncResult.empty]
  | true =>
    have h := foldOutcome_sum
      (repos.map (syncStep cfg
        (if cfg.healthCheck then (healthPhase repos).1 else [])))
      ⟨0, 0, 0, 0, repos.length, [], [], [],
        if cfg.healthCheck then (healthPhase repos).2 else ⟨0, 0, 0, 0⟩⟩
    simp only [List.length_map] at h
    refine ⟨?_, ?_, fun hc => absurd hc (by simp [hok])⟩ <;>
      simp [syncUserRepositories, hok, SyncResult.empty] <;> omega

/-- The repository record a loop iteration leaves behind: unchanged unless
the operation succeeded, in which case exactly the two mutable flags are
rewritten. -/
lemma syncStep_newRepo (cfg : SyncConfig)
    (dict : List (String × HealthStatus)) (e : RepoEnv) :
    (syncStep cfg dict e).newRepo =
      (if (syncStep cfg dict e).kind = .successOutcome ∨
          (syncStep cfg dict e).kind = .repairedOutcome then
        { e.repo with needUpdate := false, localExists := true }
      else e.repo) := by
  simp only [syncStep]
  repeat' split
  all_goals simp_all

/-- C9: the orchestration pass rewrites a repository record exactly when its
operation succeeded, and then it writes exactly `need_update := false` and
`local_exists := true`; a failed or skipped repository's record — every
field of it — is returned unchanged, and nothing is touched on the early
bootstrap-failure return. -/
theorem flags_written_only_on_success (cfg : SyncConfig)
    (repos : List RepoEnv) :
    (cfg.structureOk = false →
      (syncUserRepositories cfg repos).repos = repos.map (·.repo)) ∧
    (cfg.structureOk = true →
      (syncUserRepositories cfg repos).repos = repos.map (fun e =>
        if (syncStep cfg
              (if cfg.healthCheck then (healthPhase repos).1 else []) e).kind
              = .successOutcome ∨
            (syncStep cfg
              (if cfg.healthCheck then (healthPhase repos).1 else []) e).kind
              = .repairedOutcome then
          { e.repo with needUpdate := false, localExists := true }
        else e.repo)) := by
  constructor
  · intro hok
    simp [syncUserRepositories, hok]
  · intro hok
    simp only [syncUserRepositories, hok, Bool.not_true, Bool.false_eq_true,
      if_false, List.map_map]
    refine List.map_congr_left fun e he => ?_
    exact syncStep_newRepo cfg _ e

/-- Witness for C9: a successful run on `"bar"` leaves exactly
`need_update = false` and `local_exists = true` rewritten. -/
theorem flags_written_only_on_success_witness :
    (syncUserRepositories syncCfg [barEnv]).repos =
      [⟨"bar", some "git@host:org/bar.git", some "2025-01-01T00:00:00Z",
        true, false, []⟩] := by
  have h := (flags_written_only_on_success syncCfg [barEnv]).2 rfl
  rw [h]; decide

/-- Witness for C10: when the directory bootstrap fails, a two-repository
run reports `failed = 2`. -/
theorem sync_counters_partition_witness :
    (syncUserRepositories ⟨"sync", true, true, 3, false⟩
      [barEnv, bazEnv]).result.failed = 2 := by
  have h := (sync_counters_partition ⟨"sync", true, true, 3, false⟩
    [barEnv, bazEnv]).2.2 rfl
  simpa using h.1

/-- The no-clone-address branch of the loop body. -/
lemma syncStep_noUrl (cfg : SyncConfig) (dict : List (String × HealthStatus))
    (e : RepoEnv) (hurl : strTruthy e.repo.sshUrl = false) :
    syncStep cfg dict e =
      ⟨e.repo.name, .failedNoUrl, "No SSH URL", 0, 0, 0, e.repo⟩ := by
  simp [syncStep, hurl]

/-- C7 (amended): a repository without a clone address is immediately
recorded as failed with reason "No SSH URL" (the failed map only, not the
skipped map), with zero attempts consumed, zero executor invocations, zero
escalations, and no retry; its iteration record appears in the run's
outcome list. -/
theorem no_url_skipped_as_failed :
    (∀ (cfg : SyncConfig) (dict : List (String × HealthStatus)) (e : RepoEnv),
      strTruthy e.repo.sshUrl = false →
      syncStep cfg dict e =
        ⟨e.repo.name, .failedNoUrl, "No SSH URL", 0, 0, 0, e.repo⟩) ∧
    (∀ (cfg : SyncConfig) (repos : List RepoEnv) (e : RepoEnv),
      cfg.structureOk = true → e ∈ repos →
      strTruthy e.repo.sshUrl = false →
      (⟨e.repo.name, .failedNoUrl, "No SSH URL", 0, 0, 0, e.repo⟩ : RepoOutcome)
        ∈ (syncUserRepositories cfg repos).outcomes) := by
  refine ⟨fun cfg dict e hurl => syncStep_noUrl cfg dict e hurl, ?_⟩
  intro cfg repos e hok hmem hurl
  simp only [syncUserRepositories, hok, Bool.not_true, Bool.false_eq_true,
    if_false]
  exact List.mem_map.mpr ⟨e, hmem, syncStep_noUrl cfg _ e hurl⟩

/-- C7 counterexample: the recorded reason is the code's "No SSH URL", not
the claimed "No remote address", and the skipped map stays empty. -/
theorem no_url_reason_differs_from_claim :
    dictGet "baz" (syncUserRepositories syncCfg [bazEnv]).result.failedRepos
      = some "No SSH URL" ∧
    dictGet "baz" (syncUserRepositories syncCfg [bazEnv]).result.skippedRepos
      = none ∧
    dictGet "baz" (syncUserRepositories syncCfg [bazEnv]).result.failedRepos
      ≠ some "No remote address" := by
  decide

/-- Witness for C7 (amended) on the concrete `"baz"` run. -/
theorem no_url_skipped_as_failed_witness :
    (⟨"baz", .failedNoUrl, "No SSH URL", 0, 0, 0,
      ⟨"baz", none, none, false, true, []⟩⟩ : RepoOutcome)
      ∈ (syncUserRepositories syncCfg [bazEnv]).outcomes := by
  have h := no_url_skipped_as_failed.2 syncCfg [bazEnv] bazEnv rfl
    (List.mem_singleton.mpr rfl) (by decide)
  exact h

/-- C6: a re-acquisition clone that completes but fails the post-clone
health verification is removed and repair returns failure; and — given the
guarantee that the external `git clone` process removes its target when it
exits nonzero — a failing repair always leaves the target path fully
absent, never a partial fragment (absent trivially satisfies "fully absent
or fully healthy"). -/
theorem repair_failure_leaves_no_partial (env : RepairEnv)
    (hgit : ∀ post : PathState,
      env.cloneProc = .completes false post → post = PathState.absent) :
    ((executeRepair env).1.1 = false → (executeRepair env).2 = PathState.absent) ∧
    (∀ post : PathState, (tryFixRepository env).1.1 = false →
      env.validTargetPath = true →
      env.cloneProc = .completes true post → post.verifyOk = false →
      (executeRepair env).1.1 = false ∧
      (executeRepair env).2 = PathState.absent) := by
  constructor
  · intro hfail
    by_cases hfix : (tryFixRepository env).1.1
    · simp [executeRepair, hfix] at hfail
    · cases hvp : env.validTargetPath with
      | false => simp [executeRepair, hfix, cloneRepository, hvp]
      | true =>
        cases hcp : env.cloneProc with
        | completes rcZero post =>
          cases rcZero with
          | true =>
            cases hv : post.verifyOk with
            | true =>
              simp [executeRepair, hfix, cloneRepository, hvp,
                gitCloneExecute, hcp, hv] at hfail
            | false =>
              simp [executeRepair, hfix, cloneRepository, hvp,
                gitCloneExecute, hcp, hv]
          | false =>
            have habs := hgit post hcp
            simp [executeRepair, hfix, cloneRepository, hvp,
              gitCloneExecute, hcp, habs]
        | timedOut =>
          simp [executeRepair, hfix, cloneRepository, hvp, gitCloneExecute, hcp]
        | raises =>
          simp [executeRepair, hfix, cloneRepository, hvp, gitCloneExecute, hcp]
  · intro post hfix hvp hcp hv
    simp [executeRepair, hfix, cloneRepository, hvp, gitCloneExecute, hcp, hv]

/-- Witness for C6: a concrete repair whose fix fails and whose clone exits
0 but is unhealthy returns failure with the target path absent. -/
theorem repair_failure_leaves_no_partial_witness :
    (executeRepair repairUnhealthyCloneEnv).1.1 = false ∧
    (executeRepair repairUnhealthyCloneEnv).2 = PathState.absent := by
  have h := repair_failure_leaves_no_partial repairUnhealthyCloneEnv
    (by intro post hcp; simp [repairUnhealthyCloneEnv] at hcp)
  exact h.2 ⟨true, true, false⟩ (by decide) rfl rfl rfl

/-- C5 (amended): the orchestrator classifies a successful operation as
repaired exactly when the lowercased message contains "repaired" or
"re-cloned"; the in-place-fix success of a planned repair produces
"Fixed: Fixed with fetch and reset", which contains neither marker, so such
a repository is counted under `successful`, not `repaired`. -/
theorem repaired_classification :
    (∀ (cfg : SyncConfig) (dict : List (String × HealthStatus)) (e : RepoEnv),
      strTruthy e.repo.sshUrl = true →
      determineSmartOperation cfg.operation
        (if cfg.healthCheck then dictGet e.repo.name dict else none) e.health
        e.health.pathExists e.health.gitDirExists e.repo.pushedAt e.stale
        ≠ "skip" →
      (executeWithRetries
        ⟨cfg.maxRetries, cfg.autoRepair,
          determineSmartOperation cfg.operation
            (if cfg.healthCheck then dictGet e.repo.name dict else none)
            e.health e.health.pathExists e.health.gitDirExists
            e.repo.pushedAt e.stale,
          e.baseOutcome, e.repairOutcome⟩).success = true →
      (syncStep cfg dict e).kind =
        (if containsSub "repaired" (lowerStr (executeWithRetries
              ⟨cfg.maxRetries, cfg.autoRepair,
                determineSmartOperation cfg.operation
                  (if cfg.healthCheck then dictGet e.repo.name dict else none)
                  e.health e.health.pathExists e.health.gitDirExists
                  e.repo.pushedAt e.stale,
                e.baseOutcome, e.repairOutcome⟩).message) ||
            containsSub "re-cloned" (lowerStr (executeWithRetries
              ⟨cfg.maxRetries, cfg.autoRepair,
                determineSmartOperation cfg.operation
                  (if cfg.healthCheck then dictGet e.repo.name dict else none)
                  e.health e.health.pathExists e.health.gitDirExists
                  e.repo.pushedAt e.stale,
                e.baseOutcome, e.repairOutcome⟩).message) then
          StepKind.repairedOutcome
        else StepKind.successOutcome)) ∧
    (∀ renv : RepairEnv, renv.initial.pathExists = true →
      renv.initial.gitDirExists = true → renv.fixThrows = false →
      renv.fixPost.verifyOk = true →
      (executeRepair renv).1 = (true, "Fixed: Fixed with fetch and reset")) ∧
    containsSub "repaired" (lowerStr "Fixed: Fixed with fetch and reset")
      = false ∧
    containsSub "re-cloned" (lowerStr "Fixed: Fixed with fetch and reset")
      = false := by
  refine ⟨?_, ?_, by decide, by decide⟩
  · intro cfg dict e hurl hop hs
    simp only [syncStep, hurl, Bool.not_true, Bool.false_eq_true, if_false]
    rw [if_neg hop, if_pos hs, apply_ite RepoOutcome.kind]
  · intro renv h1 h2 h3 h4
    simp [executeRepair, tryFixRepository, h1, h2, h3, h4]

/-- C5 counterexample: repository `"bar"` is `partially_broken`, the plan
is repair, the in-place fix succeeds — yet the run counts it as
`successful`, with `repaired = 0` and an empty repaired map; the outcome
message is the fix message. -/
theorem repair_fix_not_counted_repaired :
    checkRepositoryHealth barEnv.health = .partially_broken ∧
    (syncUserRepositories syncCfg [barEnv]).result.repaired = 0 ∧
    (syncUserRepositories syncCfg [barEnv]).result.repairedRepos = [] ∧
    (syncUserRepositories syncCfg [barEnv]).result.successful = 1 ∧
    (syncUserRepositories syncCfg [barEnv]).outcomes =
      [⟨"bar", .successOutcome, "Fixed: Fixed with fetch and reset", 1, 1, 0,
        ⟨"bar", some "git@host:org/bar.git", some "2025-01-01T00:00:00Z",
          true, false, []⟩⟩] := by
  decide

/-- Witness for C5 (amended) on the concrete `"bar"` step: the planned
repair's fix success is classified `successOutcome`. -/
theorem repaired_classification_witness :
    (syncStep syncCfg [("bar", HealthStatus.partially_broken)] barEnv).kind
      = StepKind.successOutcome := by
  have h := repaired_classification.1 syncCfg
    [("bar", HealthStatus.partially_broken)] barEnv
    (by decide) (by decide) (by decide)
  rw [h]; decide

end SmartRepo
